import Mathlib

/-!
Verification development for the MOZG analytics engine
(`backend/app/services`): a shallow embedding in Lean 4 of the pure
computational cores of the ABC/XYZ menu classifier (`reports/menu.py`),
the market-basket pair miner (`analytics/basket.py`), the statistical
anomaly detector (`forecasting/anomaly.py`) and the revenue / product
demand forecasters (`forecasting/revenue.py`, `forecasting/demand.py`),
together with proofs of the specification's claims about them.

Modelling conventions:
* Python `Decimal` / `float` arithmetic is idealised as exact `ℚ`
  (respectively `ℝ` where the source takes square roots via
  `np.std` / `pandas.std`); `Decimal.quantize` (round half to even,
  the default context rounding) is modelled by `quant` below.
* Database queries only materialise input series; the embedded
  functions take those series as arguments.
* The third-party Prophet model is external to the repository: its
  `predict` output rows (`yhat`, `yhat_lower`, `yhat_upper`) enter the
  embedded functions as an explicit argument, and a fit that raises is
  an argument of value `none`.
* Presentation-only fields (Russian description strings, cause/action
  template lists, per-category summary dictionaries, insight strings)
  are omitted: the spec excludes them from the core's testable surface.
-/

namespace Mozg

/-! ### Decimal quantization (round half to even), shared helper -/

/-- Round to the nearest integer, ties to even: the rounding used by
`Decimal.quantize` under Python's default context. -/
def roundHE {α : Type} [LinearOrderedField α] [FloorRing α] (x : α) : ℤ :=
  if x - ⌊x⌋ < 1/2 then ⌊x⌋
  else if (1/2 : α) < x - ⌊x⌋ then ⌊x⌋ + 1
  else if ⌊x⌋ % 2 = 0 then ⌊x⌋ else ⌊x⌋ + 1

/-- Model of `Decimal.quantize` to `d` decimal places (also Python
`round(Decimal, d)`): round half to even at the `d`-th decimal. -/
def quant {α : Type} [LinearOrderedField α] [FloorRing α] (d : ℕ) (x : α) : α :=
  (roundHE (x * 10 ^ d) : α) / 10 ^ d

theorem floor_le_roundHE {α : Type} [LinearOrderedField α] [FloorRing α] (x : α) :
    ⌊x⌋ ≤ roundHE x := by
  unfold roundHE; split_ifs <;> omega

theorem roundHE_le_floor_add_one {α : Type} [LinearOrderedField α] [FloorRing α] (x : α) :
    roundHE x ≤ ⌊x⌋ + 1 := by
  unfold roundHE; split_ifs <;> omega

theorem roundHE_mono {α : Type} [LinearOrderedField α] [FloorRing α]
    {x y : α} (hxy : x ≤ y) : roundHE x ≤ roundHE y := by
  rcases lt_or_eq_of_le (Int.floor_le_floor hxy) with hlt | heq
  · calc roundHE x ≤ ⌊x⌋ + 1 := roundHE_le_floor_add_one x
      _ ≤ ⌊y⌋ := hlt
      _ ≤ roundHE y := floor_le_roundHE y
  · have hfr : x - (⌊x⌋ : α) ≤ y - (⌊y⌋ : α) := by
      rw [← heq]; exact sub_le_sub_right hxy _
    unfold roundHE
    rw [heq] at hfr ⊢
    split_ifs <;> first | omega | linarith

theorem quant_mono {α : Type} [LinearOrderedField α] [FloorRing α]
    (d : ℕ) {x y : α} (hxy : x ≤ y) : quant d x ≤ quant d y := by
  unfold quant
  have h10 : (0 : α) < 10 ^ d := by positivity
  apply div_le_div_of_nonneg_right _ h10.le
  exact_mod_cast roundHE_mono (mul_le_mul_of_nonneg_right hxy (le_of_lt h10))

theorem roundHE_intCast {α : Type} [LinearOrderedField α] [FloorRing α] (n : ℤ) :
    roundHE (n : α) = n := by
  unfold roundHE
  rw [Int.floor_intCast]
  have h : (n : α) - n = 0 := sub_self _
  rw [h]
  norm_num

/-! ### Stable sorting

Python's `list.sort(key=k, reverse=True)` is a stable descending sort:
this stable insertion sort has exactly that specification. -/

/-- Insert `x` into a descending-sorted list, before the first element
whose key is `≤` its own (so earlier-inserted equal keys stay first). -/
def insertDesc {α : Type} (key : α → ℚ) (x : α) : List α → List α
  | [] => [x]
  | y :: ys => if key y ≤ key x then x :: y :: ys else y :: insertDesc key x ys

/-- Stable sort, descending by `key` (models `sort(key=…, reverse=True)`). -/
def sortByDesc {α : Type} (key : α → ℚ) : List α → List α
  | [] => []
  | x :: xs => insertDesc key x (sortByDesc key xs)

theorem insertDesc_perm {α : Type} (key : α → ℚ) (x : α) (l : List α) :
    (insertDesc key x l).Perm (x :: l) := by
  induction l with
  | nil => simp [insertDesc]
  | cons y ys ih =>
    unfold insertDesc
    split_ifs
    · exact List.Perm.refl _
    · exact (List.Perm.cons y ih).trans (List.Perm.swap x y ys)

theorem sortByDesc_perm {α : Type} (key : α → ℚ) (l : List α) :
    (sortByDesc key l).Perm l := by
  induction l with
  | nil => exact List.Perm.refl _
  | cons x xs ih =>
    exact (insertDesc_perm key x (sortByDesc key xs)).trans (List.Perm.cons x ih)

/-! ### ABC analysis (`reports/menu.py`, `MenuAnalysisService.abc_analysis`)

The SQL aggregation in `get_product_sales` materialises one row per
product (ordered by revenue descending); `abc_analysis` consumes that
list.  The per-category `summary` dictionary is presentation
aggregation over the same `products` list and is omitted here. -/

/-- ABC classification category (`ABCCategory`). -/
inductive ABCCategory | A | B | C
deriving DecidableEq, Repr

/-- One aggregated sales row, as produced by `get_product_sales`. -/
structure SalesRow where
  productId : ℕ
  quantity : ℚ
  revenue : ℚ
  cost : ℚ
deriving DecidableEq, Repr

/-- Computes `profit = revenue - cost` (with falsy `cost` treated as `0`, which
coincides with using the value). -/
def profitOf (r : SalesRow) : ℚ := r.revenue - r.cost

/-- Metric selector for ABC analysis. -/
inductive Metric | revenue | profit | quantity
deriving DecidableEq, Repr

/-- The chosen metric's value on a row. -/
def metricValue (m : Metric) (r : SalesRow) : ℚ :=
  match m with
  | .revenue => r.revenue
  | .profit => profitOf r
  | .quantity => r.quantity

/-- Sorting step of `abc_analysis`: for `profit` and `quantity` the rows
are stably sorted descending by the metric; for `revenue` the input
order is kept (the SQL query already orders by revenue descending). -/
def sortedRows (m : Metric) (rows : List SalesRow) : List SalesRow :=
  match m with
  | .revenue => rows
  | .profit => sortByDesc (fun r => profitOf r) rows
  | .quantity => sortByDesc (fun r => r.quantity) rows

/-- The `total_metric` over the whole input. -/
def totalMetric (m : Metric) (rows : List SalesRow) : ℚ :=
  (rows.map (metricValue m)).sum

/-- The `total_revenue` over the whole input. -/
def totalRevenue (rows : List SalesRow) : ℚ := (rows.map (·.revenue)).sum

/-- Computes `metric_percent = metric_value / total_metric * 100 if total_metric > 0 else 0`. -/
def metricPercent (total v : ℚ) : ℚ := if 0 < total then v / total * 100 else 0

/-- Category assignment from the running cumulative percentage
(`cumulative <= 80 → A`, `<= 95 → B`, else `C`). -/
def abcCategoryOf (cumulative : ℚ) : ABCCategory :=
  if cumulative ≤ 80 then .A else if cumulative ≤ 95 then .B else .C

/-- One classified product (`ProductABC`; name strings omitted). -/
structure ProductABC where
  productId : ℕ
  quantity : ℚ
  revenue : ℚ
  cost : ℚ
  profit : ℚ
  marginPercent : ℚ
  revenuePercent : ℚ
  cumulativePercent : ℚ
  abcCategory : ABCCategory
deriving DecidableEq, Repr

/-- The classification loop of `abc_analysis`: walk the sorted rows
accumulating `cumulative` and emit one `ProductABC` per row. -/
def buildABC (m : Metric) (total totalRev : ℚ) : ℚ → List SalesRow → List ProductABC
  | _, [] => []
  | cum, r :: rs =>
    let cum' := cum + metricPercent total (metricValue m r)
    { productId := r.productId
      quantity := r.quantity
      revenue := r.revenue
      cost := r.cost
      profit := profitOf r
      marginPercent := quant 2 (if 0 < r.revenue then profitOf r / r.revenue * 100 else 0)
      revenuePercent := quant 2 (if 0 < totalRev then r.revenue / totalRev * 100 else 0)
      cumulativePercent := quant 2 cum'
      abcCategory := abcCategoryOf cum' } :: buildABC m total totalRev cum' rs

/-- The `abc_analysis` classification (the `products` list of `ABCAnalysisResult`). -/
def abc_analysis (rows : List SalesRow) (m : Metric) : List ProductABC :=
  buildABC m (totalMetric m rows) (totalRevenue rows) 0 (sortedRows m rows)

/-- The successive values taken by the loop variable `cumulative` of
`abc_analysis` after each item, starting from `cum`. -/
def runCums (m : Metric) (total : ℚ) : ℚ → List SalesRow → List ℚ
  | _, [] => []
  | cum, r :: rs =>
    let cum' := cum + metricPercent total (metricValue m r)
    cum' :: runCums m total cum' rs

theorem buildABC_map_cumulative (m : Metric) (total totalRev : ℚ)
    (cum : ℚ) (rows : List SalesRow) :
    (buildABC m total totalRev cum rows).map (·.cumulativePercent)
      = (runCums m total cum rows).map (quant 2) := by
  induction rows generalizing cum with
  | nil => rfl
  | cons r rs ih => simp [buildABC, runCums, ih]

theorem buildABC_map_category (m : Metric) (total totalRev : ℚ)
    (cum : ℚ) (rows : List SalesRow) :
    (buildABC m total totalRev cum rows).map (·.abcCategory)
      = (runCums m total cum rows).map abcCategoryOf := by
  induction rows generalizing cum with
  | nil => rfl
  | cons r rs ih => simp [buildABC, runCums, ih]

theorem runCums_chain' (m : Metric) (total : ℚ) (cum : ℚ) (rows : List SalesRow)
    (h : ∀ r ∈ rows, 0 ≤ metricPercent total (metricValue m r)) :
    List.Chain' (· ≤ ·) (runCums m total cum rows) := by
  induction rows generalizing cum with
  | nil => simp [runCums]
  | cons r rs ih =>
    have hrest := ih (cum + metricPercent total (metricValue m r))
      (fun s hs => h s (List.mem_cons_of_mem r hs))
    cases rs with
    | nil => simp [runCums]
    | cons s ss =>
      refine List.chain'_cons.mpr ⟨?_, hrest⟩
      have := h s (by simp)
      linarith

theorem getLast?_cons_of_some {α : Type} {l : List α} {a x : α}
    (h : l.getLast? = some x) : (a :: l).getLast? = some x := by
  cases l with
  | nil => simp at h
  | cons b bs => rw [List.getLast?_cons_cons]; exact h

theorem runCums_getLast? (m : Metric) (total : ℚ) (cum : ℚ)
    (rows : List SalesRow) (hne : rows ≠ []) :
    (runCums m total cum rows).getLast?
      = some (cum + (rows.map (fun r => metricPercent total (metricValue m r))).sum) := by
  induction rows generalizing cum with
  | nil => exact absurd rfl hne
  | cons r rs ih =>
    cases rs with
    | nil => simp [runCums]
    | cons s ss =>
      rw [runCums]
      refine getLast?_cons_of_some ?_
      rw [ih _ (by simp)]
      simp [add_assoc]

theorem sum_metricPercent (m : Metric) (total : ℚ) (htotal : 0 < total)
    (rows : List SalesRow) :
    (rows.map (fun r => metricPercent total (metricValue m r))).sum
      = (rows.map (metricValue m)).sum / total * 100 := by
  induction rows with
  | nil => simp
  | cons r rs ih =>
    simp only [List.map_cons, List.sum_cons, ih]
    simp only [metricPercent, if_pos htotal]
    ring

theorem sortedRows_perm (m : Metric) (rows : List SalesRow) :
    (sortedRows m rows).Perm rows := by
  cases m with
  | revenue => exact List.Perm.refl _
  | profit => exact sortByDesc_perm _ rows
  | quantity => exact sortByDesc_perm _ rows

theorem buildABC_nonpos_total {m : Metric} {total totalRev cum : ℚ}
    {rows : List SalesRow} (h : ¬ 0 < total) :
    ∀ p ∈ buildABC m total totalRev cum rows,
      p.cumulativePercent = quant 2 cum ∧ p.abcCategory = abcCategoryOf cum := by
  induction rows generalizing cum with
  | nil => simp [buildABC]
  | cons r rs ih =>
    intro p hp
    have hz : metricPercent total (metricValue m r) = 0 := by
      simp [metricPercent, h]
    rw [buildABC] at hp
    simp only [hz, add_zero] at hp
    rcases List.mem_cons.mp hp with hEq | hmem
    · exact ⟨by rw [hEq], by rw [hEq]⟩
    · exact ih p hmem

theorem quant_ofNat (d n : ℕ) : quant d (n : ℚ) = n := by
  have : ((n : ℚ)) * 10 ^ d = ((n * 10 ^ d : ℤ) : ℚ) := by push_cast; ring
  rw [quant, this, roundHE_intCast]
  push_cast
  rw [mul_div_assoc, div_self (by positivity), mul_one]

/-- **C2 counterexample.** Two products with zero revenue: the metric
total is `0`, every product's share is `0`, and contrary to the claim
the assigned category is `A` (the loop compares `cumulative = 0 ≤ 80`
first), not `C`. -/
def abcZeroRows : List SalesRow := [⟨1, 0, 0, 0⟩, ⟨2, 0, 0, 0⟩]

/-- C2: the claim "if the metric total is 0, every product is assigned
category C" is false on the code: with total `0` every cumulative stays
`0 ≤ 80`, so every product lands in category `A`. -/
theorem abc_zero_total_not_C :
    totalMetric .revenue abcZeroRows = 0 ∧
    ¬ (∀ p ∈ abc_analysis abcZeroRows .revenue, p.abcCategory = ABCCategory.C) := by
  constructor
  · norm_num [totalMetric, metricValue, abcZeroRows]
  · norm_num [abc_analysis, sortedRows, buildABC, totalMetric, totalRevenue,
      metricValue, metricPercent, profitOf, abcCategoryOf, abcZeroRows]
    decide

/-- C2 (amended): in ABC classification, if the total of the chosen
metric over all input products is 0, every product gets percentage 0
(its cumulative share stays 0) and is assigned category **A** (since
`cumulative = 0 ≤ 80`), not C. -/
theorem abc_zero_total_all_A (rows : List SalesRow) (m : Metric)
    (h : totalMetric m rows = 0) :
    ∀ p ∈ abc_analysis rows m,
      p.cumulativePercent = 0 ∧ p.abcCategory = ABCCategory.A := by
  intro p hp
  have h0 : ¬ 0 < totalMetric m rows := by rw [h]; exact lt_irrefl 0
  have hfields := buildABC_nonpos_total h0 p hp
  have hq : quant 2 (0 : ℚ) = 0 := by
    simpa using quant_ofNat 2 0
  have hc : abcCategoryOf 0 = ABCCategory.A := by norm_num [abcCategoryOf]
  rw [hq, hc] at hfields
  exact hfields

/-- Witness for C2's amended theorem at the concrete zero-revenue input. -/
theorem abc_zero_total_all_A_witness :
    totalMetric .revenue abcZeroRows = 0 ∧
    ∀ p ∈ abc_analysis abcZeroRows .revenue,
      p.cumulativePercent = 0 ∧ p.abcCategory = ABCCategory.A :=
  ⟨by norm_num [totalMetric, metricValue, abcZeroRows],
    abc_zero_total_all_A abcZeroRows .revenue
      (by norm_num [totalMetric, metricValue, abcZeroRows])⟩

/-- **C3 counterexample input.** With `metric = profit`, one product has
profit `200` and the other `-100` (cost above revenue); the total is
`100`, so the cumulative percentages run `200` then `100` — decreasing. -/
def abcNegProfitRows : List SalesRow := [⟨1, 1, 200, 0⟩, ⟨2, 1, 0, 100⟩]

/-- C3: the claim fails as stated: for the profit metric a product with
negative profit makes `cumulative_percent` decrease along the output. -/
theorem abc_cumulative_not_monotone :
    abcNegProfitRows ≠ [] ∧
    ¬ List.Chain' (· ≤ ·)
        ((abc_analysis abcNegProfitRows .profit).map (·.cumulativePercent)) := by
  constructor
  · simp [abcNegProfitRows]
  · have hval : (abc_analysis abcNegProfitRows .profit).map (·.cumulativePercent)
        = [200, 100] := by
      norm_num [abc_analysis, sortedRows, sortByDesc, insertDesc, buildABC,
        totalMetric, totalRevenue, metricValue, metricPercent, profitOf,
        abcNegProfitRows, quant, roundHE]
    rw [hval]
    simp [List.chain'_cons]
    norm_num

/-- C3 (amended): for every non-empty input all of whose chosen metric
values are nonnegative and whose metric total is positive (for each of
the metrics revenue, profit, quantity), `cumulative_percent` is
non-decreasing in the output sort order, the final `cumulative_percent`
is exactly 100, and the categories are assigned exactly by applying the
thresholds `≤ 80 → A`, `≤ 95 → B`, else `C` to the running cumulative. -/
theorem abc_cumulative_monotone_total (rows : List SalesRow) (m : Metric)
    (hne : rows ≠ []) (hnn : ∀ r ∈ rows, 0 ≤ metricValue m r)
    (hpos : 0 < totalMetric m rows) :
    List.Chain' (· ≤ ·) ((abc_analysis rows m).map (·.cumulativePercent)) ∧
    ((abc_analysis rows m).map (·.cumulativePercent)).getLast? = some 100 ∧
    (abc_analysis rows m).map (·.abcCategory)
      = (runCums m (totalMetric m rows) 0 (sortedRows m rows)).map abcCategoryOf := by
  have hperm := sortedRows_perm m rows
  have hsne : sortedRows m rows ≠ [] := by
    intro hnil
    have : rows.Perm ([] : List SalesRow) := by
      have := hperm.symm
      rwa [hnil] at this
    exact hne this.eq_nil
  have hnn' : ∀ r ∈ sortedRows m rows,
      0 ≤ metricPercent (totalMetric m rows) (metricValue m r) := by
    intro r hr
    have hv := hnn r (hperm.mem_iff.mp hr)
    rw [metricPercent, if_pos hpos]
    exact mul_nonneg (div_nonneg hv hpos.le) (by norm_num)
  have habc : abc_analysis rows m
      = buildABC m (totalMetric m rows) (totalRevenue rows) 0 (sortedRows m rows) := rfl
  refine ⟨?_, ?_, ?_⟩
  · rw [habc, buildABC_map_cumulative]
    exact (List.chain'_map _).mpr
      ((runCums_chain' m _ 0 _ hnn').imp (fun a b hab => quant_mono 2 hab))
  · rw [habc, buildABC_map_cumulative, List.getLast?_map,
      runCums_getLast? m _ 0 _ hsne]
    have hsum : ((sortedRows m rows).map
        (fun r => metricPercent (totalMetric m rows) (metricValue m r))).sum = 100 := by
      rw [sum_metricPercent m _ hpos]
      have : ((sortedRows m rows).map (metricValue m)).sum
          = (rows.map (metricValue m)).sum := (hperm.map (metricValue m)).sum_eq
      rw [this]
      rw [show (rows.map (metricValue m)).sum = totalMetric m rows from rfl]
      rw [div_self (ne_of_gt hpos)]
      norm_num
    rw [hsum]
    norm_num
    simpa using quant_ofNat 2 100
  · rw [habc, buildABC_map_category]

/-- Witness input for C3: two products with revenues `60` and `40`. -/
def c3Rows : List SalesRow := [⟨1, 1, 60, 0⟩, ⟨2, 1, 40, 0⟩]

/-- Witness for C3's amended theorem at the concrete two-product input. -/
theorem abc_cumulative_monotone_total_witness :
    (c3Rows ≠ [] ∧ (∀ r ∈ c3Rows, 0 ≤ metricValue .revenue r) ∧
      0 < totalMetric .revenue c3Rows) ∧
    (List.Chain' (· ≤ ·) ((abc_analysis c3Rows .revenue).map (·.cumulativePercent)) ∧
     ((abc_analysis c3Rows .revenue).map (·.cumulativePercent)).getLast? = some 100 ∧
     (abc_analysis c3Rows .revenue).map (·.abcCategory)
       = (runCums .revenue (totalMetric .revenue c3Rows) 0
           (sortedRows .revenue c3Rows)).map abcCategoryOf) :=
  ⟨⟨by simp [c3Rows], by norm_num [c3Rows, metricValue],
      by norm_num [totalMetric, metricValue, c3Rows]⟩,
    abc_cumulative_monotone_total c3Rows .revenue (by simp [c3Rows])
      (by norm_num [c3Rows, metricValue])
      (by norm_num [totalMetric, metricValue, c3Rows])⟩

/-! ### Go-List (`reports/menu.py`, `MenuAnalysisService.go_list`) -/

/-- Go-List recommendation category (`GoListCategory`). -/
inductive GoListCategory | stars | workhorses | puzzles | dogs | potential | standard
deriving DecidableEq, Repr

/-- Model of `np.median`: middle element of the sorted list for odd length,
mean of the two middle elements for even length. -/
def npMedian (l : List ℚ) : ℚ :=
  let s := sortByDesc (fun x => -x) l
  if l.length % 2 = 1 then s.getD (l.length / 2) 0
  else (s.getD (l.length / 2 - 1) 0 + s.getD (l.length / 2) 0) / 2

/-- The constant `MenuAnalysisService.MARGIN_THRESHOLD`: the fixed 30% fallback. -/
def MARGIN_THRESHOLD : ℚ := 30

/-- Threshold selection in `go_list`: an explicit `margin_threshold` wins;
otherwise the median of the positive margins, or the fixed 30% constant
when no product has a positive margin. -/
def goListThreshold (products : List ProductABC) (mt : Option ℚ) : ℚ :=
  match mt with
  | some t => t
  | none =>
    let margins := (products.filter (fun p => 0 < p.marginPercent)).map (·.marginPercent)
    if margins.isEmpty then MARGIN_THRESHOLD else npMedian margins

/-- The ABC × margin cross-tabulation of `go_list`. -/
def goCategory (abc : ABCCategory) (isHighMargin : Bool) : GoListCategory :=
  match abc, isHighMargin with
  | .A, true => .stars
  | .A, false => .workhorses
  | .B, true => .potential
  | .B, false => .standard
  | .C, true => .puzzles
  | .C, false => .dogs

/-- One Go-List item (`GoListItem`; name strings and the templated
recommendation text omitted). -/
structure GoItem where
  productId : ℕ
  abcCategory : ABCCategory
  marginPercent : ℚ
  goListCategory : GoListCategory
  revenue : ℚ
  profit : ℚ
deriving DecidableEq, Repr

/-- The `go_list` computation applied to the classified products of `abc_analysis`
(the `items` list of `GoListResult`; summary/recommendation strings are
presentation glue and omitted). -/
def go_list (products : List ProductABC) (marginThreshold : Option ℚ) : List GoItem :=
  if products.isEmpty then []
  else
    let threshold := goListThreshold products marginThreshold
    products.map (fun p =>
      { productId := p.productId
        abcCategory := p.abcCategory
        marginPercent := p.marginPercent
        goListCategory := goCategory p.abcCategory (decide (threshold ≤ p.marginPercent))
        revenue := p.revenue
        profit := p.profit })

/-- C10: calling `go_list` without a `margin_threshold` on a non-empty
product set in which no product has a positive margin silently falls
back to the fixed constant 30% (no median is taken), and every product
is assigned exactly one Go-List category — here necessarily one of the
three low-margin cells `workhorses` / `standard` / `dogs` of the six. -/
theorem go_list_fixed_threshold_fallback (products : List ProductABC)
    (hne : products ≠ [])
    (hnp : ∀ p ∈ products, ¬ 0 < p.marginPercent) :
    goListThreshold products none = 30 ∧
    go_list products none
      = products.map (fun p =>
          { productId := p.productId
            abcCategory := p.abcCategory
            marginPercent := p.marginPercent
            goListCategory := goCategory p.abcCategory false
            revenue := p.revenue
            profit := p.profit }) ∧
    ∀ i ∈ go_list products none,
      i.goListCategory = GoListCategory.workhorses ∨
      i.goListCategory = GoListCategory.standard ∨
      i.goListCategory = GoListCategory.dogs := by
  have hfilter : products.filter (fun p => 0 < p.marginPercent) = [] := by
    rw [List.filter_eq_nil_iff]
    intro p hp
    simpa using hnp p hp
  have hth : goListThreshold products none = 30 := by
    simp [goListThreshold, hfilter, MARGIN_THRESHOLD]
  have hlist : go_list products none
      = products.map (fun p =>
          { productId := p.productId
            abcCategory := p.abcCategory
            marginPercent := p.marginPercent
            goListCategory := goCategory p.abcCategory false
            revenue := p.revenue
            profit := p.profit }) := by
    rw [go_list, if_neg (by simpa [List.isEmpty_iff] using hne)]
    rw [hth]
    refine List.map_congr_left ?_
    intro p hp
    have hlow : ¬ (30 : ℚ) ≤ p.marginPercent := by
      have := hnp p hp
      push_neg at this
      intro hle
      linarith
    simp [hlow]
  refine ⟨hth, hlist, ?_⟩
  intro i hi
  rw [hlist] at hi
  rcases List.mem_map.mp hi with ⟨p, _, hpi⟩
  cases hcat : p.abcCategory <;>
    simp [← hpi, goCategory, hcat]

/-- Witness input for C10: two products, both with non-positive margin. -/
def c10Products : List ProductABC :=
  [⟨1, 1, 100, 100, 0, 0, 100, 100, .A⟩, ⟨2, 1, 50, 60, -10, -20, 50, 100, .C⟩]

/-- Witness for C10's theorem at the concrete input. -/
theorem go_list_fixed_threshold_fallback_witness :
    (c10Products ≠ [] ∧ ∀ p ∈ c10Products, ¬ 0 < p.marginPercent) ∧
    goListThreshold c10Products none = 30 :=
  ⟨⟨by simp [c10Products], by norm_num [c10Products]⟩,
    (go_list_fixed_threshold_fallback c10Products (by simp [c10Products])
      (by norm_num [c10Products])).1⟩

/-! ### Market-basket pair mining (`analytics/basket.py`,
`BasketAnalysisService.calculate_product_pairs`)

A basket is the set of distinct product ids on one receipt; the data
layer delivers `receipt_products` as a receipt-id→set mapping, of which
only the list of sets matters here. -/

/-- Number of baskets containing product `p` (`product_counts`). -/
def productOccurrences (baskets : List (Finset ℕ)) (p : ℕ) : ℕ :=
  (baskets.filter (fun s => p ∈ s)).length

/-- Number of baskets containing both `a` and `b` (`pair_counts`). -/
def pairOccurrences (baskets : List (Finset ℕ)) (a b : ℕ) : ℕ :=
  (baskets.filter (fun s => a ∈ s ∧ b ∈ s)).length

/-- Computes `min_support_count = int(total_receipts * float(min_support))`
(truncation = floor for the nonnegative values involved). -/
def minSupportCount (total : ℕ) (minSupport : ℚ) : ℕ :=
  (⌊(total : ℚ) * minSupport⌋).toNat

/-- A pair survives the filter when its co-occurrence count is at least
`max(min_occurrences, min_support_count)`. -/
def survivesFilter (minOccurrences minSupportCnt co : ℕ) : Prop :=
  max minOccurrences minSupportCnt ≤ co

/-- One mined association rule (`ProductPair`; name strings omitted). -/
structure ProductPairE where
  productA : ℕ
  productB : ℕ
  coOccurrenceCount : ℕ
  productACount : ℕ
  productBCount : ℕ
  totalReceipts : ℕ
  support : ℚ
  confidenceAToB : ℚ
  confidenceBToA : ℚ
  lift : ℚ
deriving DecidableEq, Repr

/-- The metric computation of `calculate_product_pairs` for one
surviving pair (source lines 236–260). -/
def mkProductPair (a b coCount countA countB total : ℕ) : ProductPairE :=
  let support : ℚ := (coCount : ℚ) / total
  let confAB : ℚ := if 0 < countA then (coCount : ℚ) / countA else 0
  let confBA : ℚ := if 0 < countB then (coCount : ℚ) / countB else 0
  let expected : ℚ := ((countA : ℚ) / total) * ((countB : ℚ) / total) * total
  let lift : ℚ := if 0 < expected then (coCount : ℚ) / expected else 1
  { productA := a
    productB := b
    coOccurrenceCount := coCount
    productACount := countA
    productBCount := countB
    totalReceipts := total
    support := quant 4 support
    confidenceAToB := quant 3 confAB
    confidenceBToA := quant 3 confBA
    lift := quant 2 lift }

/-- C6: the mined metrics satisfy the spec formulas (each stored value
being the formula value at the declared output quantization), the lift
formula `co / ((count(A)/total) × (count(B)/total) × total)` coincides
with `co·total / (count(A)·count(B))`, and on the concrete example
`total=1000, count(A)=100, count(B)=80, co=50` the output is exactly
`support=0.05`, `confidence(A→B)=0.5`, `confidence(B→A)=0.625`,
`lift=6.25`. -/
theorem product_pair_metrics (a b coCount countA countB total : ℕ)
    (minOccurrences : ℕ) (minSupport : ℚ)
    (ht : 0 < total) (ha : 0 < countA) (hb : 0 < countB)
    (_hsurv : survivesFilter minOccurrences (minSupportCount total minSupport) coCount) :
    ((mkProductPair a b coCount countA countB total).support
        = quant 4 ((coCount : ℚ) / total) ∧
      (mkProductPair a b coCount countA countB total).confidenceAToB
        = quant 3 ((coCount : ℚ) / countA) ∧
      (mkProductPair a b coCount countA countB total).confidenceBToA
        = quant 3 ((coCount : ℚ) / countB) ∧
      (mkProductPair a b coCount countA countB total).lift
        = quant 2 ((coCount : ℚ)
            / (((countA : ℚ) / total) * ((countB : ℚ) / total) * total)) ∧
      (mkProductPair a b coCount countA countB total).lift
        = quant 2 (((coCount : ℚ) * total) / ((countA : ℚ) * countB))) ∧
    ((mkProductPair 1 2 50 100 80 1000).support = 0.05 ∧
      (mkProductPair 1 2 50 100 80 1000).confidenceAToB = 0.5 ∧
      (mkProductPair 1 2 50 100 80 1000).confidenceBToA = 0.625 ∧
      (mkProductPair 1 2 50 100 80 1000).lift = 6.25) := by
  have htq : (0 : ℚ) < total := by exact_mod_cast ht
  have haq : (0 : ℚ) < countA := by exact_mod_cast ha
  have hbq : (0 : ℚ) < countB := by exact_mod_cast hb
  have hexp : (0 : ℚ) < ((countA : ℚ) / total) * ((countB : ℚ) / total) * total :=
    mul_pos (mul_pos (div_pos haq htq) (div_pos hbq htq)) htq
  have halt : (coCount : ℚ)
        / (((countA : ℚ) / total) * ((countB : ℚ) / total) * total)
      = ((coCount : ℚ) * total) / ((countA : ℚ) * countB) := by
    field_simp
    ring
  refine ⟨⟨rfl, ?_, ?_, ?_, ?_⟩, ?_⟩
  · simp only [mkProductPair, if_pos ha]
  · simp only [mkProductPair, if_pos hb]
  · simp only [mkProductPair, if_pos hexp]
  · simp only [mkProductPair, if_pos hexp, halt]
  · refine ⟨?_, ?_, ?_, ?_⟩ <;>
      norm_num [mkProductPair, quant, roundHE]

/-- Witness for C6 at the spec's example counts (with the default
parameters `min_support = 0.01`, `min_occurrences = 5`, under which the
pair `co = 50` survives: `max(5, ⌊1000·0.01⌋) = 10 ≤ 50`). -/
theorem product_pair_metrics_witness :
    (0 < 1000 ∧ 0 < 100 ∧ 0 < 80 ∧
      survivesFilter 5 (minSupportCount 1000 0.01) 50) ∧
    ((mkProductPair 1 2 50 100 80 1000).support = 0.05 ∧
      (mkProductPair 1 2 50 100 80 1000).confidenceAToB = 0.5 ∧
      (mkProductPair 1 2 50 100 80 1000).confidenceBToA = 0.625 ∧
      (mkProductPair 1 2 50 100 80 1000).lift = 6.25) :=
  ⟨⟨by norm_num, by norm_num, by norm_num,
      by norm_num [survivesFilter, minSupportCount]⟩,
    (product_pair_metrics 1 2 50 100 80 1000 5 0.01 (by norm_num) (by norm_num)
      (by norm_num) (by norm_num [survivesFilter, minSupportCount])).2⟩

/-! ### Revenue forecasting (`forecasting/revenue.py`,
`RevenueForecastService.forecast_revenue` / `quick_forecast`)

Dates are modelled as integer day ordinals.  The Prophet model is
third-party code outside the repository: its `predict` output rows
enter as an explicit argument.  Accuracy backtesting, seasonality and
trend extraction, and insight strings read further Prophet model state
and are not referenced by any claim; they are omitted. -/

/-- One historical observation (`ds`, `y`). -/
structure HPoint where
  ds : ℤ
  y : ℚ
deriving DecidableEq, Repr

/-- One Prophet `predict` output row (`ds`, `yhat`, `yhat_lower`,
`yhat_upper`). -/
structure RawRow where
  ds : ℤ
  yhat : ℚ
  yhatLower : ℚ
  yhatUpper : ℚ
deriving DecidableEq, Repr

/-- The `ForecastPoint` record. -/
structure ForecastPointE where
  date : ℤ
  forecast : ℚ
  lowerBound : ℚ
  upperBound : ℚ
  isActual : Bool
deriving DecidableEq, Repr

/-- Computes `data['ds'].max()` (the last actual date). -/
def lastActualDs (data : List HPoint) : ℤ :=
  ((data.map (·.ds)).max?).getD 0

/-- Point construction in `forecast_revenue`:
`max(0, ·)` then quantize to 2 decimals on each of `yhat`,
`yhat_lower`, `yhat_upper`. -/
def mkRevenuePoint (lastActual : ℤ) (r : RawRow) : ForecastPointE :=
  { date := r.ds
    forecast := quant 2 (max 0 r.yhat)
    lowerBound := quant 2 (max 0 r.yhatLower)
    upperBound := quant 2 (max 0 r.yhatUpper)
    isActual := decide (r.ds ≤ lastActual) }

/-- The historical/forecast split of the Prophet output rows. -/
def revenuePoints (data : List HPoint) (rows : List RawRow) :
    List ForecastPointE × List ForecastPointE :=
  let lastActual := lastActualDs data
  ((rows.filter (fun r => decide (r.ds ≤ lastActual))).map (mkRevenuePoint lastActual),
   (rows.filter (fun r => !decide (r.ds ≤ lastActual))).map (mkRevenuePoint lastActual))

/-- Error taxonomy surfaced by the top-level revenue forecast
(`raise ValueError("Insufficient data …")`). -/
inductive ForecastError | insufficientData
deriving DecidableEq, Repr

/-- The `RevenueForecast` record (analysis components not referenced by claims
omitted). -/
structure RevenueForecastE where
  horizonDays : ℕ
  historical : List ForecastPointE
  forecast : List ForecastPointE
  totalForecast : ℚ
  avgDailyForecast : ℚ
  growthPercent : ℚ
deriving DecidableEq, Repr

/-- Embeds `forecast_revenue`: guard `len(data) < 30` (raise), else assemble
the forecast from the model rows; `historical` keeps the last 90
points, and the summary figures follow the source's formulas. -/
def forecast_revenue (data : List HPoint) (rows : List RawRow)
    (horizonDays : ℕ) : Except ForecastError RevenueForecastE :=
  if data.length < 30 then .error .insufficientData
  else
    let pts := revenuePoints data rows
    let totalForecast := (pts.2.map (·.forecast)).sum
    let avgDaily := if pts.2.length ≠ 0 then totalForecast / pts.2.length else 0
    let historicalAvg := (data.map (·.y)).sum / (data.length : ℚ)
    .ok { horizonDays := horizonDays
          historical := pts.1.drop (pts.1.length - 90)
          forecast := pts.2
          totalForecast := quant 2 totalForecast
          avgDailyForecast := quant 2 avgDaily
          growthPercent :=
            quant 1 (if 0 < historicalAvg
              then (avgDaily - historicalAvg) / historicalAvg * 100 else 0) }

/-- Embeds `quick_forecast`: with fewer than 14 points fall back to a flat
average forecast with bounds `avg·0.8` / `avg·1.2`; otherwise emit the
model rows strictly after the last actual date. -/
def quick_forecast (data : List HPoint) (rows : List RawRow)
    (days : ℕ) (today : ℤ) : List ForecastPointE :=
  if data.length < 14 then
    let avg : ℚ := if 0 < data.length then (data.map (·.y)).sum / data.length else 0
    (List.range' 1 days).map (fun (i : ℕ) =>
      { date := today + (i : ℤ)
        forecast := avg
        lowerBound := avg * 0.8
        upperBound := avg * 1.2
        isActual := false })
  else
    (rows.filter (fun r => decide (lastActualDs data < r.ds))).map
      (mkRevenuePoint (lastActualDs data))

/-- C7: the top-level revenue forecast fails with the
insufficient-data error exactly when fewer than 30 historical points
are available; with 30 or more points it returns a result and never
raises that error. -/
theorem forecast_revenue_insufficient_iff (data : List HPoint)
    (rows : List RawRow) (horizonDays : ℕ) :
    forecast_revenue data rows horizonDays = .error .insufficientData
      ↔ data.length < 30 := by
  unfold forecast_revenue
  split_ifs with h
  · simpa using h
  · simpa using h

/-! ### Real-valued statistics helpers

`np.mean`, `np.std` (population, `ddof = 0`) and `pandas.Series.std`
(sample, `ddof = 1`), over float series modelled as `List ℝ`. -/

/-- Model of `np.mean` / pandas mean: arithmetic mean (Lean's `x / 0 = 0`
convention gives `0` on the empty list, a case the callers guard). -/
noncomputable def rmean (l : List ℝ) : ℝ := l.sum / l.length

/-- Population variance (the square of `np.std`). -/
noncomputable def popVar (l : List ℝ) : ℝ :=
  ((l.map (fun x => (x - rmean l) ^ 2)).sum) / l.length

/-- Model of `np.std` (population standard deviation, `ddof = 0`). -/
noncomputable def popStd (l : List ℝ) : ℝ := Real.sqrt (popVar l)

/-- Model of `pandas.Series.std` (sample standard deviation, `ddof = 1`). -/
noncomputable def sampleStd (l : List ℝ) : ℝ :=
  Real.sqrt (((l.map (fun x => (x - rmean l) ^ 2)).sum) / ((l.length : ℝ) - 1))

theorem rmean_const {l : List ℝ} {c : ℝ} (h : ∀ x ∈ l, x = c) (hne : l ≠ []) :
    rmean l = c := by
  have hsum : l.sum = l.length • c := List.sum_eq_card_nsmul l c h
  have hlen : (l.length : ℝ) ≠ 0 :=
    Nat.cast_ne_zero.mpr (List.length_pos.mpr hne).ne'
  rw [rmean, hsum, nsmul_eq_mul, mul_div_assoc]
  field_simp

theorem popVar_const {l : List ℝ} {c : ℝ} (h : ∀ x ∈ l, x = c) :
    popVar l = 0 := by
  rcases eq_or_ne l [] with hnil | hne
  · simp [popVar, hnil]
  · have hmap : l.map (fun x => (x - rmean l) ^ 2) = l.map (fun _ => 0) := by
      refine List.map_congr_left ?_
      intro x hx
      rw [h x hx, rmean_const h hne, sub_self]
      norm_num
    simp [popVar, hmap]

theorem popStd_eq_zero_iff (l : List ℝ) : popStd l = 0 ↔ popVar l = 0 := by
  have hnn : 0 ≤ popVar l := by
    rcases eq_or_ne l [] with hnil | hne
    · simp [popVar, hnil]
    · refine div_nonneg ?_ (by positivity)
      refine List.sum_nonneg ?_
      intro x hx
      rcases List.mem_map.mp hx with ⟨a, _, ha⟩
      rw [← ha]
      positivity
  exact Real.sqrt_eq_zero hnn

/-! ### Product demand forecasting (`forecasting/demand.py`,
`DemandForecastService._forecast_product`)

Quantity series are floats (`ℝ`): the success-path confidence score
divides the sample standard deviation by the mean.  A Prophet fit that
raises is modelled by the `fit` argument being `none`; the source
catches every exception and falls back, so the embedded function is
total. -/

/-- One day of product sales history. -/
structure DRow where
  ds : ℤ
  y : ℝ

/-- One Prophet `predict` row for the demand model. -/
structure DRawRow where
  ds : ℤ
  yhat : ℝ
  yhatLower : ℝ
  yhatUpper : ℝ

/-- The `ProductForecastPoint` record. -/
structure PPoint where
  date : ℤ
  quantity : ℝ
  lowerBound : ℝ
  upperBound : ℝ

/-- Computes `data['ds'].max()` for demand history. -/
def lastDemandDs (data : List DRow) : ℤ :=
  ((data.map (·.ds)).max?).getD 0

/-- Computes `data['y'].mean() if len(data) > 0 else 0` (the guard used on the
short-history fallback path). -/
noncomputable def demandAvg (data : List DRow) : ℝ :=
  if 0 < data.length then rmean (data.map (·.y)) else 0

/-- Embeds `_forecast_product`: returns the forecast points and the confidence
score.  Under 14 points: flat average forecast, bounds
`max(0, avg·0.5)` / `avg·1.5`, confidence 50, no model fit.  On a model
fit that raises (`fit = none`): flat average forecast, bounds
`max(0, avg·0.7)` / `avg·1.3`, confidence 40 — the exception is caught
and never propagated.  On success: clamped, quantized model rows
strictly after the last actual date, and a length/variability-based
confidence clamped to `[30, 100]`. -/
noncomputable def forecastProduct (data : List DRow) (horizonDays : ℕ)
    (today : ℤ) (fit : Option (List DRawRow)) : List PPoint × ℝ :=
  if data.length < 14 then
    let avg := demandAvg data
    ((List.range' 1 horizonDays).map (fun (i : ℕ) =>
      { date := today + (i : ℤ)
        quantity := avg
        lowerBound := max 0 (avg * 0.5)
        upperBound := avg * 1.5 }), 50)
  else
    match fit with
    | none =>
      let avg := rmean (data.map (·.y))
      ((List.range' 1 horizonDays).map (fun (i : ℕ) =>
        { date := today + (i : ℤ)
          quantity := avg
          lowerBound := max 0 (avg * 0.7)
          upperBound := avg * 1.3 }), 40)
    | some rows =>
      let points := (rows.filter (fun r => decide (lastDemandDs data < r.ds))).map
        (fun r =>
          { date := r.ds
            quantity := quant 2 (max 0 r.yhat)
            lowerBound := quant 2 (max 0 r.yhatLower)
            upperBound := quant 2 (max 0 r.yhatUpper) })
      let m := rmean (data.map (·.y))
      let variance := if 0 < m then sampleStd (data.map (·.y)) / m else 1
      let confidence :=
        min 100 (max 30 (100 - variance * 50 + min 50 (data.length : ℝ)))
      (points, quant 1 confidence)

/-- C8: with fewer than 14 history points the demand forecaster returns
a flat forecast equal to the historical mean with bounds at ±50% of the
mean and confidence 50, bypassing the model; with enough points but a
model fit that raises it returns the flat forecast with bounds at ±30%
of the mean and confidence 40 (the exception is caught — the embedded
function is total, so nothing propagates). -/
theorem forecast_product_fallbacks (data : List DRow) (horizonDays : ℕ)
    (today : ℤ) (fit : Option (List DRawRow))
    (hmean : 0 ≤ rmean (data.map (·.y))) :
    (data.length < 14 →
      (forecastProduct data horizonDays today fit).2 = 50 ∧
      (forecastProduct data horizonDays today fit).1.length = horizonDays ∧
      ∀ p ∈ (forecastProduct data horizonDays today fit).1,
        p.quantity = demandAvg data ∧
        p.lowerBound = demandAvg data * 0.5 ∧
        p.upperBound = demandAvg data * 1.5) ∧
    (14 ≤ data.length → fit = none →
      (forecastProduct data horizonDays today fit).2 = 40 ∧
      (forecastProduct data horizonDays today fit).1.length = horizonDays ∧
      ∀ p ∈ (forecastProduct data horizonDays today fit).1,
        p.quantity = rmean (data.map (·.y)) ∧
        p.lowerBound = rmean (data.map (·.y)) * 0.7 ∧
        p.upperBound = rmean (data.map (·.y)) * 1.3) := by
  have havg : 0 ≤ demandAvg data := by
    rw [demandAvg]
    split_ifs
    · exact hmean
    · exact le_refl 0
  constructor
  · intro hshort
    rw [forecastProduct.eq_def, if_pos hshort]
    refine ⟨rfl, by rw [List.length_map, List.length_range'], ?_⟩
    intro p hp
    rcases List.mem_map.mp hp with ⟨i, _, hip⟩
    have hlb : max 0 (demandAvg data * 0.5) = demandAvg data * 0.5 :=
      max_eq_right (by nlinarith)
    exact ⟨by rw [← hip], by rw [← hip]; exact hlb, by rw [← hip]⟩
  · intro hlong hfit
    have hns : ¬ data.length < 14 := not_lt.mpr hlong
    rw [forecastProduct.eq_def, if_neg hns, hfit]
    refine ⟨rfl, by rw [List.length_map, List.length_range'], ?_⟩
    intro p hp
    rcases List.mem_map.mp hp with ⟨i, _, hip⟩
    have hlb : max 0 (rmean (data.map (·.y)) * 0.7)
        = rmean (data.map (·.y)) * 0.7 :=
      max_eq_right (by nlinarith)
    exact ⟨by rw [← hip], by rw [← hip]; exact hlb, by rw [← hip]⟩

/-- Witness input for C8: five days of constant sales `4.0`. -/
noncomputable def c8Data : List DRow :=
  [⟨1, 4⟩, ⟨2, 4⟩, ⟨3, 4⟩, ⟨4, 4⟩, ⟨5, 4⟩]

/-- Witness for C8 at the concrete five-day history (short-history
branch; the fit argument is irrelevant there and instantiated `none`). -/
theorem forecast_product_fallbacks_witness :
    (0 ≤ rmean (c8Data.map (·.y)) ∧ c8Data.length < 14) ∧
    ((forecastProduct c8Data 7 0 none).2 = 50 ∧
      (forecastProduct c8Data 7 0 none).1.length = 7 ∧
      ∀ p ∈ (forecastProduct c8Data 7 0 none).1,
        p.quantity = demandAvg c8Data ∧
        p.lowerBound = demandAvg c8Data * 0.5 ∧
        p.upperBound = demandAvg c8Data * 1.5) := by
  have hm : 0 ≤ rmean (c8Data.map (·.y)) := by
    rw [show c8Data.map (·.y) = [4, 4, 4, 4, 4] from rfl]
    rw [rmean_const (c := 4) (by norm_num) (by simp)]
    norm_num
  exact ⟨⟨hm, by simp [c8Data]⟩,
    (forecast_product_fallbacks c8Data 7 0 none hm).1 (by simp [c8Data])⟩

/-! ### C4: bound invariants of every emitted forecast point -/

theorem clampQuant_le {α : Type} [LinearOrderedField α] [FloorRing α]
    {x y : α} (h : x ≤ y) : quant 2 (max 0 x) ≤ quant 2 (max 0 y) :=
  quant_mono 2 (max_le_max le_rfl h)

theorem mkRevenuePoint_inv (lastActual : ℤ) (r : RawRow)
    (h1 : r.yhatLower ≤ r.yhat) (h2 : r.yhat ≤ r.yhatUpper) :
    (mkRevenuePoint lastActual r).lowerBound ≤ (mkRevenuePoint lastActual r).forecast ∧
    (mkRevenuePoint lastActual r).forecast ≤ (mkRevenuePoint lastActual r).upperBound :=
  ⟨clampQuant_le h1, clampQuant_le h2⟩

theorem mem_revenuePoints {data : List HPoint} {rows : List RawRow}
    {p : ForecastPointE}
    (hp : p ∈ (revenuePoints data rows).1 ∨ p ∈ (revenuePoints data rows).2) :
    ∃ r ∈ rows, p = mkRevenuePoint (lastActualDs data) r := by
  rcases hp with hp | hp <;>
  · simp only [revenuePoints, List.mem_map] at hp
    rcases hp with ⟨r, hr, hrp⟩
    exact ⟨r, List.mem_of_mem_filter hr, hrp.symm⟩

theorem qmean_nonneg (data : List HPoint) (hnn : ∀ x ∈ data, 0 ≤ x.y) :
    0 ≤ (data.map (·.y)).sum / (data.length : ℚ) := by
  refine div_nonneg ?_ (by positivity)
  refine List.sum_nonneg ?_
  intro q hq
  rcases List.mem_map.mp hq with ⟨x, hx, hxq⟩
  exact hxq ▸ hnn x hx

/-- C4: for every forecast point emitted by the revenue forecaster
(full forecast under a model whose interval brackets its point
estimate, and quick forecast — including its average-based fallback on
a nonnegative history) and by the product demand forecaster (model
path, short-history fallback and exception fallback, on a nonnegative
history), `lower_bound ≤ forecast ≤ upper_bound` holds. -/
theorem forecast_bounds_invariant :
    (∀ (data : List HPoint) (rows : List RawRow) (horizonDays : ℕ)
        (res : RevenueForecastE),
      (∀ r ∈ rows, r.yhatLower ≤ r.yhat ∧ r.yhat ≤ r.yhatUpper) →
      forecast_revenue data rows horizonDays = .ok res →
      ∀ p ∈ res.historical ++ res.forecast,
        p.lowerBound ≤ p.forecast ∧ p.forecast ≤ p.upperBound) ∧
    (∀ (data : List HPoint) (rows : List RawRow) (days : ℕ) (today : ℤ),
      (∀ r ∈ rows, r.yhatLower ≤ r.yhat ∧ r.yhat ≤ r.yhatUpper) →
      (∀ x ∈ data, 0 ≤ x.y) →
      ∀ p ∈ quick_forecast data rows days today,
        p.lowerBound ≤ p.forecast ∧ p.forecast ≤ p.upperBound) ∧
    (∀ (data : List DRow) (horizonDays : ℕ) (today : ℤ)
        (fit : Option (List DRawRow)),
      (∀ rows, fit = some rows →
        ∀ r ∈ rows, r.yhatLower ≤ r.yhat ∧ r.yhat ≤ r.yhatUpper) →
      (∀ x ∈ data, 0 ≤ x.y) →
      ∀ p ∈ (forecastProduct data horizonDays today fit).1,
        p.lowerBound ≤ p.quantity ∧ p.quantity ≤ p.upperBound) := by
  refine ⟨?_, ?_, ?_⟩
  · intro data rows horizonDays res hbr heq p hp
    by_cases hlen : data.length < 30
    · rw [forecast_revenue, if_pos hlen] at heq
      exact absurd heq (by simp)
    · rw [forecast_revenue, if_neg hlen] at heq
      dsimp only at heq
      injection heq with heq
      subst heq
      have hp' : p ∈ (revenuePoints data rows).1 ∨ p ∈ (revenuePoints data rows).2 := by
        rcases List.mem_append.mp hp with hp1 | hp2
        · exact Or.inl (List.mem_of_mem_drop hp1)
        · exact Or.inr hp2
      rcases mem_revenuePoints hp' with ⟨r, hr, hpr⟩
      rw [hpr]
      exact mkRevenuePoint_inv _ r (hbr r hr).1 (hbr r hr).2
  · intro data rows days today hbr hnn p hp
    by_cases hshort : data.length < 14
    · rw [quick_forecast, if_pos hshort] at hp
      dsimp only at hp
      rcases List.mem_map.mp hp with ⟨i, _, hip⟩
      have havg : 0 ≤ (if 0 < data.length
          then (data.map (·.y)).sum / (data.length : ℚ) else 0) := by
        split_ifs
        · exact qmean_nonneg data hnn
        · exact le_refl 0
      constructor
      · rw [← hip]; dsimp only; nlinarith
      · rw [← hip]; dsimp only; nlinarith
    · rw [quick_forecast, if_neg hshort] at hp
      rcases List.mem_map.mp hp with ⟨r, hr, hrp⟩
      rw [← hrp]
      exact mkRevenuePoint_inv _ r (hbr r (List.mem_of_mem_filter hr)).1
        (hbr r (List.mem_of_mem_filter hr)).2
  · intro data horizonDays today fit hbr hnn p hp
    have havg : 0 ≤ rmean (data.map (·.y)) := by
      rw [rmean]
      refine div_nonneg ?_ (by positivity)
      refine List.sum_nonneg ?_
      intro q hq
      rcases List.mem_map.mp hq with ⟨x, hx, hxq⟩
      exact hxq ▸ hnn x hx
    have hda : 0 ≤ demandAvg data := by
      rw [demandAvg]; split_ifs
      · exact havg
      · exact le_refl 0
    by_cases hshort : data.length < 14
    · rw [forecastProduct.eq_def, if_pos hshort] at hp
      dsimp only at hp
      rcases List.mem_map.mp hp with ⟨i, _, hip⟩
      constructor
      · rw [← hip]; dsimp only
        exact max_le hda (by nlinarith)
      · rw [← hip]; dsimp only; nlinarith
    · cases fit with
      | none =>
        rw [forecastProduct.eq_def, if_neg hshort] at hp
        dsimp only at hp
        rcases List.mem_map.mp hp with ⟨i, _, hip⟩
        constructor
        · rw [← hip]; dsimp only
          exact max_le havg (by nlinarith)
        · rw [← hip]; dsimp only; nlinarith
      | some rows =>
        rw [forecastProduct.eq_def, if_neg hshort] at hp
        dsimp only at hp
        rcases List.mem_map.mp hp with ⟨r, hr, hrp⟩
        have hbr' := hbr rows rfl r (List.mem_of_mem_filter hr)
        constructor
        · rw [← hrp]; exact clampQuant_le hbr'.1
        · rw [← hrp]; exact clampQuant_le hbr'.2

/-- Witness for C4 at concrete inputs: the quick-forecast fallback on
a one-day history (and, for the demand part, an empty fit). -/
theorem forecast_bounds_invariant_witness :
    ((∀ r ∈ ([] : List RawRow), r.yhatLower ≤ r.yhat ∧ r.yhat ≤ r.yhatUpper) ∧
      (∀ x ∈ [(⟨1, 10⟩ : HPoint)], 0 ≤ x.y)) ∧
    (∀ p ∈ quick_forecast [⟨1, 10⟩] [] 3 0,
      p.lowerBound ≤ p.forecast ∧ p.forecast ≤ p.upperBound) :=
  ⟨⟨by simp, by norm_num⟩,
    forecast_bounds_invariant.2.1 [⟨1, 10⟩] [] 3 0 (by simp) (by norm_num)⟩

/-! ### Anomaly detection (`forecasting/anomaly.py`,
`AnomalyDetectionService._detect_metric_anomalies` /
`detect_daily_anomalies`)

Metric series are floats (`ℝ`; the z-score divides by `np.std`).  A
point is identified by its index in the series; description strings
and the cause/action lookup tables are presentation glue and omitted. -/

/-- The `AnomalyType` enumeration. -/
inductive AnomalyType
  | revenueSpike | revenueDrop | trafficSpike | trafficDrop
  | avgCheckSpike | avgCheckDrop | productSpike | productDrop
  | hourlyAnomaly
deriving DecidableEq, Repr

/-- The `AnomalySeverity` enumeration. -/
inductive AnomalySeverity | low | medium | high | critical
deriving DecidableEq, Repr

/-- Embeds `_calculate_z_score`: `0` when the standard deviation is `0`. -/
noncomputable def calculateZScore (value mean std : ℝ) : ℝ :=
  if std = 0 then 0 else (value - mean) / std

/-- Embeds `_get_severity`: highest `Z_THRESHOLDS`
(`low 2.0 / medium 3.0 / high 4.0 / critical 5.0`) met by `|z|` wins;
below 2.0 no severity. -/
noncomputable def getSeverity (z : ℝ) : Option AnomalySeverity :=
  if 5 ≤ |z| then some .critical
  else if 4 ≤ |z| then some .high
  else if 3 ≤ |z| then some .medium
  else if 2 ≤ |z| then some .low
  else none

/-- One detected anomaly (`Anomaly`; presentation fields omitted). -/
structure AnomalyE where
  anomalyType : AnomalyType
  severity : AnomalySeverity
  index : ℕ
  actualValue : ℝ
  expectedValue : ℝ
  deviationPercent : ℝ
  zScore : ℝ

/-- The trailing window `values[i-window : i]` with `window = 14`
(excludes the point itself). -/
def windowSlice (values : List ℝ) (i : ℕ) : List ℝ :=
  (values.drop (i - 14)).take 14

/-- One iteration of the detection loop of `_detect_metric_anomalies`
at index `i`: skip when the window's σ is 0 or `|z| < 2`, otherwise
emit an anomaly of the direction-dependent type. -/
noncomputable def detectAt (posT negT : AnomalyType) (values : List ℝ)
    (i : ℕ) : Option AnomalyE :=
  let w := windowSlice values i
  let mean := rmean w
  let std := popStd w
  if std = 0 then none
  else
    let z := calculateZScore (values.getD i 0) mean std
    match getSeverity z with
    | none => none
    | some severity =>
      let deviationPercent :=
        if mean ≠ 0 then (values.getD i 0 - mean) / mean * 100 else 0
      some { anomalyType := if 0 < z then posT else negT
             severity := severity
             index := i
             actualValue := quant 2 (values.getD i 0)
             expectedValue := quant 2 mean
             deviationPercent := quant 1 deviationPercent
             zScore := quant 2 z }

/-- Embeds `_detect_metric_anomalies`: nothing under 14 points, else the loop
`for i in range(window, len(values))` with `window = 14`. -/
noncomputable def detectMetricAnomalies (values : List ℝ)
    (posT negT : AnomalyType) : List AnomalyE :=
  if values.length < 14 then []
  else (List.range' 14 (values.length - 14)).filterMap (detectAt posT negT values)

/-- The three daily metric series consumed by `detect_daily_anomalies`
(columns of one dataframe, equal lengths). -/
structure DailyMetrics where
  revenue : List ℝ
  receipts : List ℝ
  avgCheck : List ℝ

/-- Embeds `detect_daily_anomalies`: run the metric detector over the revenue,
receipts and average-check series and concatenate. -/
noncomputable def detect_daily_anomalies (d : DailyMetrics) : List AnomalyE :=
  if d.revenue.length < 14 then []
  else
    detectMetricAnomalies d.revenue .revenueSpike .revenueDrop
      ++ detectMetricAnomalies d.receipts .trafficSpike .trafficDrop
      ++ detectMetricAnomalies d.avgCheck .avgCheckSpike .avgCheckDrop

/-- C5: whenever the trailing-window standard deviation is 0 the
detector emits no verdict for that point, and a series of constant
value never produces any anomaly. -/
theorem anomaly_zero_std_skipped :
    (∀ (posT negT : AnomalyType) (values : List ℝ) (i : ℕ),
      popStd (windowSlice values i) = 0 →
      detectAt posT negT values i = none) ∧
    (∀ (posT negT : AnomalyType) (values : List ℝ) (c : ℝ),
      (∀ x ∈ values, x = c) →
      detectMetricAnomalies values posT negT = []) := by
  have hskip : ∀ (posT negT : AnomalyType) (values : List ℝ) (i : ℕ),
      popStd (windowSlice values i) = 0 →
      detectAt posT negT values i = none := by
    intro posT negT values i h
    rw [detectAt.eq_def]
    dsimp only
    rw [if_pos h]
  refine ⟨hskip, ?_⟩
  intro posT negT values c hconst
  by_cases hlen : values.length < 14
  · rw [detectMetricAnomalies, if_pos hlen]
  · rw [detectMetricAnomalies, if_neg hlen]
    rw [List.filterMap_eq_nil_iff]
    intro i _
    refine hskip posT negT values i ?_
    rw [popStd_eq_zero_iff]
    refine popVar_const (c := c) ?_
    intro x hx
    exact hconst x (List.mem_of_mem_drop (List.mem_of_mem_take hx))

/-- C5 witness input: a constant 20-day series. -/
noncomputable def c5Series : List ℝ := List.replicate 20 7

/-- Witness for C5 at the constant series. -/
theorem anomaly_zero_std_skipped_witness :
    (∀ x ∈ c5Series, x = 7) ∧
    detectMetricAnomalies c5Series .revenueSpike .revenueDrop = [] :=
  ⟨by simp [c5Series], anomaly_zero_std_skipped.2 .revenueSpike .revenueDrop
    c5Series 7 (by simp [c5Series])⟩

/-- C1's series: 13 days of 1000 then a 5000 spike (14 points). -/
noncomputable def c1Series : List ℝ := List.replicate 13 1000 ++ [5000]

theorem c1Series_length : c1Series.length = 14 := by
  simp [c1Series]

/-- C1: contrary to the claim, the detector flags nothing at all on the
series `[1000]*13 + [5000]` with `window = 14`: in particular no
`revenue_spike` anomaly is produced. -/
theorem anomaly_day14_not_flagged :
    ¬ ∃ a ∈ detectMetricAnomalies c1Series .revenueSpike .revenueDrop,
        a.anomalyType = AnomalyType.revenueSpike := by
  have h : detectMetricAnomalies c1Series .revenueSpike .revenueDrop = [] := by
    rw [detectMetricAnomalies, c1Series_length]
    norm_num
  simp [h]

/-- C1 (amended): for the daily revenue series `[1000]*13 + [5000]`
(14 points) analyzed with `window = 14`, the anomaly detector emits no
anomaly: the loop starts at index `window = 14`, so with exactly 14
points no index has a complete trailing window (and any constant
trailing window would be skipped by the zero-σ guard anyway). -/
theorem anomaly_day14_amended :
    detectMetricAnomalies c1Series .revenueSpike .revenueDrop = [] := by
  rw [detectMetricAnomalies, c1Series_length]
  norm_num

/-! ### XYZ analysis (`reports/menu.py`, `MenuAnalysisService.xyz_analysis`) -/

/-- XYZ demand-stability category (`XYZCategory`). -/
inductive XYZCategory | X | Y | Z
deriving DecidableEq, Repr

/-- Coefficient of variation of a daily quantity series:
`std / mean * 100` when the mean is positive, else 0. -/
noncomputable def cvOf (l : List ℝ) : ℝ :=
  if 0 < rmean l then popStd l / rmean l * 100 else 0

/-- XYZ category from the CV: `X` below 10, `Y` below 25, else `Z`. -/
noncomputable def xyzCategoryOf (l : List ℝ) : XYZCategory :=
  if cvOf l < 10 then .X else if cvOf l < 25 then .Y else .Z

theorem sum_map_mul (c : ℝ) (f : ℝ → ℝ) (l : List ℝ) :
    (l.map (fun x => c * f x)).sum = c * (l.map f).sum := by
  induction l with
  | nil => simp
  | cons x xs ih => simp [ih, mul_add]

theorem rmean_map_mul (c : ℝ) (l : List ℝ) :
    rmean (l.map (fun x => c * x)) = c * rmean l := by
  have h : (l.map (fun x => c * x)).sum = c * l.sum := by
    simpa using sum_map_mul c id l
  rw [rmean, rmean, h, List.length_map, mul_div_assoc]

theorem popVar_map_mul (c : ℝ) (l : List ℝ) :
    popVar (l.map (fun x => c * x)) = c ^ 2 * popVar l := by
  rw [popVar, popVar, rmean_map_mul, List.map_map, List.length_map]
  have h : ((fun x => (x - c * rmean l) ^ 2) ∘ fun x => c * x)
      = fun x => c ^ 2 * ((x - rmean l) ^ 2) := by
    funext x
    simp only [Function.comp_apply]
    ring
  rw [h, sum_map_mul (c ^ 2) (fun x => (x - rmean l) ^ 2) l, mul_div_assoc]

theorem popStd_map_mul {c : ℝ} (hc : 0 < c) (l : List ℝ) :
    popStd (l.map (fun x => c * x)) = c * popStd l := by
  rw [popStd, popStd, popVar_map_mul, Real.sqrt_mul (by positivity),
    Real.sqrt_sq hc.le]

/-- C9: the XYZ coefficient of variation is scale-invariant — scaling
every value of a daily quantity series by a positive constant (e.g. 2)
leaves `CV = std/mean` unchanged, hence the X/Y/Z category unchanged. -/
theorem xyz_cv_scale_invariant (l : List ℝ) (c : ℝ) (hc : 0 < c) :
    cvOf (l.map (fun x => c * x)) = cvOf l ∧
    xyzCategoryOf (l.map (fun x => c * x)) = xyzCategoryOf l := by
  have hcv : cvOf (l.map (fun x => c * x)) = cvOf l := by
    rw [cvOf, cvOf, rmean_map_mul, popStd_map_mul hc]
    by_cases hm : 0 < rmean l
    · rw [if_pos (by positivity), if_pos hm,
        mul_div_mul_left _ _ (ne_of_gt hc)]
    · have hm' : ¬ 0 < c * rmean l := by
        intro hpos
        apply hm
        nlinarith
      rw [if_neg hm', if_neg hm]
  exact ⟨hcv, by rw [xyzCategoryOf, xyzCategoryOf, hcv]⟩

/-- Witness for C9: doubling the series `[1, 2, 3]`. -/
theorem xyz_cv_scale_invariant_witness :
    (0 : ℝ) < 2 ∧
    (cvOf ([1, 2, 3].map (fun x => 2 * x)) = cvOf [1, 2, 3] ∧
      xyzCategoryOf ([1, 2, 3].map (fun x => 2 * x)) = xyzCategoryOf [1, 2, 3]) :=
  ⟨by norm_num, xyz_cv_scale_invariant [1, 2, 3] 2 (by norm_num)⟩

end Mozg
